import Mathlib

/-!
Verification of `mhue.py`, a script that blinks Philips Hue lamps with Morse
code. The Python source is embedded shallowly: pure functions become Lean
functions over `ℤ`/`ℚ`/`List`, the lamp's remote side effects become explicit
event traces, and HTTP responses become explicit inputs. Durations are
modelled as exact rationals (`ℚ`), mirroring Python's exact arithmetic on the
small integer ratios involved.
-/

namespace Mhue

/-! ## Speed model (`class Speed`, mhue.py lines 43-91)

The Python dataclass stores `_wpm` and six derived timing fields. Its
`__init__` simply assigns `self.wpm = wpm`, which goes through the `wpm`
property setter; the setter recomputes every derived field. We model the
setter as a state-passing function `Speed.set_wpm` and `__init__` as applying
the setter to an arbitrary (all-zero) record, since the setter overwrites
every field. -/

structure Speed where
  _wpm : ℤ
  _unit_seconds : ℚ
  _dot : ℚ
  _dash : ℚ
  _letter_space : ℚ
  _space : ℚ
  _repeat_pause : ℚ
deriving DecidableEq, Repr

/-- The `wpm` property setter (mhue.py lines 61-69): stores `wpm` and
re-derives all six timing fields from it. -/
def Speed.set_wpm (_s : Speed) (wpm : ℤ) : Speed :=
  let uSeconds : ℚ := 60 / (50 * (wpm : ℚ))
  let dotT := uSeconds
  let dashT := 3 * dotT
  let letterSpaceT := 3 * dotT
  let spaceT := 7 * dotT
  let repeatPauseT := spaceT * 3
  { _wpm := wpm
    _unit_seconds := uSeconds
    _dot := dotT
    _dash := dashT
    _letter_space := letterSpaceT
    _space := spaceT
    _repeat_pause := repeatPauseT }

/-- `Speed.__init__` (mhue.py lines 53-55): delegates entirely to the `wpm`
setter, so the prior field values are irrelevant; we start from zeroes. -/
def Speed.ofWpm (wpm : ℤ) : Speed :=
  Speed.set_wpm ⟨0, 0, 0, 0, 0, 0, 0⟩ wpm

/-- The `__main__` WPM guard (mhue.py lines 551-554): a non-positive `--wpm`
prints "WPM must be positive" and exits with status 1 before `Speed` is
constructed and before the lamp session (`with Lamp(...)`) is opened or any
remote call is made. -/
def mainCheckWpm (wpm : ℤ) : Except String Speed :=
  if wpm ≤ 0 then .error "WPM must be positive" else .ok (Speed.ofWpm wpm)

/-! ## Morse table and translator (mhue.py lines 97-183) -/

/-- A Morse symbol: `.` or `-` in the Python table strings. -/
inductive MorseSymbol where
  | dot
  | dash
deriving DecidableEq, Repr

/-- The fixed Morse table `M` (mhue.py lines 97-159), with each `.`/`-` string
transcribed as a `List MorseSymbol`. A `Char` outside the table maps to
`none`, mirroring `M.get(char)` returning `None`. -/
def M (c : Char) : Option (List MorseSymbol) :=
  match c with
  | 'A' => some [.dot, .dash]
  | 'B' => some [.dash, .dot, .dot, .dot]
  | 'C' => some [.dash, .dot, .dash, .dot]
  | 'D' => some [.dash, .dot, .dot]
  | 'E' => some [.dot]
  | 'F' => some [.dot, .dot, .dash, .dot]
  | 'G' => some [.dash, .dash, .dot]
  | 'H' => some [.dot, .dot, .dot, .dot]
  | 'I' => some [.dot, .dot]
  | 'J' => some [.dot, .dash, .dash, .dash]
  | 'K' => some [.dash, .dot, .dash]
  | 'L' => some [.dot, .dash, .dot, .dot]
  | 'M' => some [.dash, .dash]
  | 'N' => some [.dash, .dot]
  | 'O' => some [.dash, .dash, .dash]
  | 'P' => some [.dot, .dash, .dash, .dot]
  | 'Q' => some [.dash, .dash, .dot, .dash]
  | 'R' => some [.dot, .dash, .dot]
  | 'S' => some [.dot, .dot, .dot]
  | 'T' => some [.dash]
  | 'U' => some [.dot, .dot, .dash]
  | 'V' => some [.dot, .dot, .dot, .dash]
  | 'W' => some [.dot, .dash, .dash]
  | 'X' => some [.dash, .dot, .dot, .dash]
  | 'Y' => some [.dash, .dot, .dash, .dash]
  | 'Z' => some [.dash, .dash, .dot, .dot]
  | '1' => some [.dot, .dash, .dash, .dash, .dash]
  | '2' => some [.dot, .dot, .dash, .dash, .dash]
  | '3' => some [.dot, .dot, .dot, .dash, .dash]
  | '4' => some [.dot, .dot, .dot, .dot, .dash]
  | '5' => some [.dot, .dot, .dot, .dot, .dot]
  | '6' => some [.dash, .dot, .dot, .dot, .dot]
  | '7' => some [.dash, .dash, .dot, .dot, .dot]
  | '8' => some [.dash, .dash, .dash, .dot, .dot]
  | '9' => some [.dash, .dash, .dash, .dash, .dot]
  | '0' => some [.dash, .dash, .dash, .dash, .dash]
  | '&' => some [.dot, .dash, .dot, .dot, .dot]
  | '\'' => some [.dot, .dash, .dash, .dash, .dash, .dot]
  | '@' => some [.dot, .dash, .dash, .dot, .dash, .dot]
  | ')' => some [.dash, .dot, .dash, .dash, .dot, .dash]
  | '(' => some [.dash, .dot, .dash, .dash, .dot]
  | ':' => some [.dash, .dash, .dash, .dot, .dot, .dot]
  | ',' => some [.dash, .dash, .dot, .dot, .dash, .dash]
  | '=' => some [.dash, .dot, .dot, .dot, .dash]
  | '!' => some [.dash, .dot, .dash, .dot, .dash, .dash]
  | '.' => some [.dot, .dash, .dot, .dash, .dot, .dash]
  | '-' => some [.dash, .dot, .dot, .dot, .dot, .dash]
  | '+' => some [.dot, .dash, .dot, .dash, .dot]
  | '"' => some [.dot, .dash, .dot, .dot, .dash, .dot]
  | '?' => some [.dot, .dot, .dash, .dash, .dot, .dot]
  | '/' => some [.dash, .dot, .dot, .dash, .dot]
  | 'À' => some [.dot, .dash, .dash, .dot, .dash]
  | 'Æ' => some [.dot, .dash, .dot, .dash]
  | 'Ø' => some [.dash, .dash, .dash, .dot]
  | 'Å' => some [.dot, .dash, .dash, .dot, .dash]
  | 'Ä' => some [.dot, .dash, .dot, .dash]
  | 'Ö' => some [.dash, .dash, .dash, .dot]
  | _ => none

/-- Per-character model of Python's `str.upper()` as used by `translate`
(mhue.py line 173): ASCII letters via `Char.toUpper`, plus the six lowercase
accented/Nordic letters appearing (uppercased) in the table `M`. Other
characters are left unchanged; Python's multi-character expansions for
exotic code points are outside the table's alphabet and not modelled. -/
def pyUpper (c : Char) : Char :=
  if c = 'à' then 'À'
  else if c = 'æ' then 'Æ'
  else if c = 'ø' then 'Ø'
  else if c = 'å' then 'Å'
  else if c = 'ä' then 'Ä'
  else if c = 'ö' then 'Ö'
  else c.toUpper

/-- Whitespace recognised by Python's no-argument `str.split()` (ASCII part). -/
def isPySpace (c : Char) : Bool :=
  c = ' ' || c = '\t' || c = '\n' || c = '\r' || c = '\x0b' || c = '\x0c'

/-- Helper for `pySplit`: accumulates the current word (reversed) while
scanning. Runs of whitespace separate words; no empty words are produced. -/
def pySplitAux : List Char → List Char → List (List Char)
  | [], acc => if acc.isEmpty then [] else [acc.reverse]
  | c :: rest, acc =>
    if isPySpace c then
      if acc.isEmpty then pySplitAux rest []
      else acc.reverse :: pySplitAux rest []
    else
      pySplitAux rest (c :: acc)

/-- Python's `msg.split()` (mhue.py line 174): split on runs of whitespace,
discarding empty pieces. -/
def pySplit (l : List Char) : List (List Char) :=
  pySplitAux l []

/-- The inner loop of `translate` (mhue.py lines 177-181): builds the word's
character list left to right, appending `M.get(char)` when it is not `None`
(`morse_word += [dots_dashes]`) and skipping the character otherwise. -/
def translateWord (word : List Char) : List (List MorseSymbol) :=
  word.foldl
    (fun morse_word c =>
      match M c with
      | some dots_dashes => morse_word ++ [dots_dashes]
      | none => morse_word)
    []

/-- `translate` (mhue.py lines 162-183): uppercase the message, split it on
whitespace into words, and translate each word; every split word contributes
exactly one (possibly empty) entry (`morse_words.append(morse_word)`). -/
def translate (msg : List Char) : List (List (List MorseSymbol)) :=
  (pySplit (msg.map pyUpper)).map translateWord

/-! ## Device state model (mhue.py lines 186-253) -/

/-- `clamp` (mhue.py lines 186-187): `max(min(x, max_x), min_x)`. Python's
`min`/`max` are generic, and the script applies `clamp` both to integers
(brightness, hue, ...) and to floats (xy coordinates), so the model is
polymorphic over a linear order. -/
def clamp {α : Type} [LinearOrder α] (min_x max_x x : α) : α :=
  max (min x max_x) min_x

/-- `LampState` (mhue.py lines 220-253). Integer fields are `ℤ`, the xy
coordinates are `ℚ` (Python floats; the script only ever compares and clamps
them). `bri` is `Option` because `__init__` guards it with
`if bri is not None` just like the optional colour fields. -/
structure LampState where
  «on» : Bool
  bri : Option ℤ
  ct : ℤ
  hue : Option ℤ
  sat : Option ℤ
  xy : Option (List ℚ)
deriving DecidableEq, Repr

/-- `LampState.__init__` (mhue.py lines 231-253): stores `on` unchanged,
clamps `ct` to [154,500], clamps `bri`/`hue`/`sat` when present (leaving
absent fields absent), and for `xy` keeps only the first two coordinates
(`xy[:2]`), clamping each to [0,1]. -/
def LampState.make («on» : Bool) (bri : Option ℤ) (ct : ℤ) (hue : Option ℤ)
    (sat : Option ℤ) (xy : Option (List ℚ)) : LampState :=
  { «on» := «on»
    ct := clamp 154 500 ct
    bri := bri.map (clamp 0 254)
    hue := hue.map (clamp 0 65535)
    sat := sat.map (clamp 0 254)
    xy := xy.map (fun l => (l.take 2).map (clamp 0 1)) }

/-! ## Lamp session release (mhue.py lines 256-320) -/

/-- A remote write against the lamp's `/state` endpoint, as issued by
`Lamp.set_state` (full state plus transition time) or `Lamp.set_on` (power
only, zero transition time). -/
inductive HueWrite where
  | setState (state : LampState)
  | set_on («on» : Bool)
deriving DecidableEq, Repr

/-- `Lamp.__exit__` (mhue.py lines 267-286), as a function from the saved
initial state and the freshly read current state to the list of remote writes
issued. If no initial state was captured, nothing happens. Otherwise the
current state's `on` field is overwritten with the initial one
(`current_state.on = self._initial_state.on`) before the dataclass equality
test, so the first branch compares only non-power fields. -/
def lampExit (initial_state : Option LampState) (current_state : LampState) :
    List HueWrite :=
  match initial_state with
  | none => []
  | some initial =>
    let currently_on := current_state.«on»
    let current' := { current_state with «on» := initial.«on» }
    if current' ≠ initial then [HueWrite.setState initial]
    else if !currently_on && initial.«on» then [HueWrite.set_on true]
    else if currently_on && !initial.«on» then [HueWrite.set_on false]
    else []

/-! ## Playback engine as an event trace (mhue.py lines 322-356, 584-587)

Playback is a straight-line sequence of `set_on` writes and `sleep` calls.
We model it as the list of those effects in order. Each `sleep` call site in
the source is tagged with its own kind, so that theorems can speak about
"intra-character pause", "letter gap", "word gap" and "repeat gap" - each tag
corresponds to exactly one `sleep(...)` line in the source. -/

/-- Which `sleep` call site produced a pause. -/
inductive SleepSite where
  | blinkHold
  | intraChar
  | letterSpace
  | wordSpace
  | repeatPause
deriving DecidableEq, Repr

/-- One observable playback effect: a power write or a timed pause. -/
inductive Ev where
  | set_on («on» : Bool)
  | sleep (site : SleepSite) (duration : ℚ)
deriving DecidableEq, Repr

/-- `Lamp.blink` (mhue.py lines 322-325): `set_on(True)`, `sleep(duration)`,
`set_on(False)`. -/
def Lamp.blink (duration_s : ℚ) : List Ev :=
  [Ev.set_on true, Ev.sleep .blinkHold duration_s, Ev.set_on false]

/-- `Lamp.blink_morse_word` (mhue.py lines 327-344), bug included: the
intra-character pause after a symbol is guarded by
`j < len(morse_word) - 1` — the symbol index against the number of
*characters in the word* — exactly as in the source (the adjacent comment
says "All except last one"). The letter gap is guarded by
`i < len(morse_word) - 1`. -/
def blink_morse_word (morse_word : List (List MorseSymbol)) (speed : Speed) :
    List Ev :=
  morse_word.enum.flatMap fun (i, char) =>
    (char.enum.flatMap fun (j, b) =>
      (match b with
        | .dot => Lamp.blink speed._dot
        | .dash => Lamp.blink speed._dash) ++
      (if j < morse_word.length - 1 then [Ev.sleep .intraChar speed._dot]
       else []))
    ++ (if i < morse_word.length - 1
        then [Ev.sleep .letterSpace speed._letter_space] else [])

/-- `Lamp.blink_morse_message` (mhue.py lines 346-356): play each word, with a
word gap (`sleep(speed.space())`) after every word except the last. -/
def blink_morse_message (morse_msg : List (List (List MorseSymbol)))
    (speed : Speed) : List Ev :=
  morse_msg.enum.flatMap fun (i, word) =>
    blink_morse_word word speed ++
    (if i < morse_msg.length - 1 then [Ev.sleep .wordSpace speed._space]
     else [])

/-- The `__main__` repeat loop (mhue.py lines 584-587):
`for _ in range(repeat): blink_morse_message(...); sleep(repeat_pause)`.
The body does not depend on the loop index, so `range(n)` becomes structural
recursion on `n`. -/
def playbackLoop (repeat_count : ℕ) (morse_msg : List (List (List MorseSymbol)))
    (speed : Speed) : List Ev :=
  match repeat_count with
  | 0 => []
  | n + 1 =>
    (blink_morse_message morse_msg speed ++
      [Ev.sleep .repeatPause speed._repeat_pause]) ++
    playbackLoop n morse_msg speed

/-! ## Transport layer and bridge error handling (mhue.py lines 301-325, 359-364)

A bridge response to a `PUT .../state` is modelled by an HTTP status outcome
plus the decoded JSON body. Per the script, only two aspects of the body
matter: whether it is a non-empty JSON array, and whether its first element
has an `"error"` key. -/

/-- One element of the bridge's JSON array response; only its `"error"` field
(if any) is inspected by the script. The payload is kept as a `String`. -/
structure HueItem where
  error : Option String
deriving DecidableEq, Repr

/-- A decoded HTTP response: `statusOk` is whether `raise_for_status()`
passes, `body` is `some items` when the JSON body is an array and `none` when
it is any non-array JSON value. -/
structure HttpResponse where
  statusOk : Bool
  body : Option (List HueItem)
deriving DecidableEq, Repr

/-- `contains_hue_error` (mhue.py lines 359-364): returns whether the body is
a non-empty array whose first element carries an `"error"` value, together
with the diagnostic lines printed to stderr. -/
def contains_hue_error (json : Option (List HueItem)) (context : String) :
    Bool × List String :=
  match json with
  | some (item :: _) =>
    match item.error with
    | some e =>
      (true,
        ["ERROR: Bridge responded with " ++ e ++ " (context: " ++ context ++ ")"])
    | none => (false, [])
  | _ => (false, [])

/-- `Lamp.set_on` (mhue.py lines 310-320) given the bridge's response:
`raise_for_status()` raises on an HTTP failure (modelled as `.error`);
otherwise `contains_hue_error(res.json(), context="set_lamp")` prints any
bridge-reported error payload and the method returns normally, yielding the
diagnostics. The returned `Bool` of `contains_hue_error` is discarded by
`set_on`, exactly as in the source. -/
def Lamp.set_on (_on : Bool) (res : HttpResponse) : Except Unit (List String) :=
  if res.statusOk then .ok (contains_hue_error res.body "set_lamp").2
  else .error ()

/-- Runs a playback trace against a stream of bridge responses (`responses k`
answers the `k`-th remote write). Each `Ev.set_on` performs `Lamp.set_on`:
an HTTP-level failure aborts (exception propagates out of the loop), while a
bridge error payload only contributes diagnostics and execution continues.
`sleep` performs no remote call. Returns the next write index and all
diagnostics printed. -/
def runEvents (responses : ℕ → HttpResponse) : ℕ → List Ev →
    Except Unit (ℕ × List String)
  | k, [] => .ok (k, [])
  | k, Ev.set_on b :: rest =>
    match Lamp.set_on b (responses k) with
    | .error e => .error e
    | .ok msgs =>
      match runEvents responses (k + 1) rest with
      | .error e => .error e
      | .ok (k', msgs') => .ok (k', msgs ++ msgs')
  | k, Ev.sleep _ _ :: rest => runEvents responses k rest

/-- Recognises the intra-character pause (the `sleep(speed.dot())` at
mhue.py line 340). -/
def Ev.isIntraCharSleep : Ev → Bool
  | Ev.sleep .intraChar _ => true
  | _ => false

/-- Recognises the repeat gap (the `sleep(speed.repeat_pause())` at
mhue.py line 587). -/
def Ev.isRepeatPauseSleep : Ev → Bool
  | Ev.sleep .repeatPause _ => true
  | _ => false

/-- The power value of an event, when the event is a power write. -/
def Ev.powerWrite : Ev → Option Bool
  | Ev.set_on b => some b
  | _ => none

/-! ## Theorems -/

/-- Field-level unfolding of `Speed.ofWpm`. -/
theorem Speed.ofWpm_eq (wpm : ℤ) :
    Speed.ofWpm wpm =
      { _wpm := wpm
        _unit_seconds := 60 / (50 * (wpm : ℚ))
        _dot := 60 / (50 * (wpm : ℚ))
        _dash := 3 * (60 / (50 * (wpm : ℚ)))
        _letter_space := 3 * (60 / (50 * (wpm : ℚ)))
        _space := 7 * (60 / (50 * (wpm : ℚ)))
        _repeat_pause := 7 * (60 / (50 * (wpm : ℚ))) * 3 } := rfl

/-- C4: for every wpm > 0 the constructed `Speed` exposes
`dot = 60/(50·wpm)` seconds, `dash = 3·dot`, `letterGap = 3·dot`,
`wordGap = 7·dot` and `repeatGap = 21·dot`, all six derived durations
strictly positive; and for every wpm ≤ 0 the `__main__` guard fails with the
InvalidParameter message "WPM must be positive" (this guard runs before any
session is opened and before any remote call). -/
theorem speed_timings_correct (wpm : ℤ) :
    (0 < wpm →
      mainCheckWpm wpm = .ok (Speed.ofWpm wpm) ∧
      (Speed.ofWpm wpm)._dot = 60 / (50 * (wpm : ℚ)) ∧
      (Speed.ofWpm wpm)._unit_seconds = (Speed.ofWpm wpm)._dot ∧
      (Speed.ofWpm wpm)._dash = 3 * (Speed.ofWpm wpm)._dot ∧
      (Speed.ofWpm wpm)._letter_space = 3 * (Speed.ofWpm wpm)._dot ∧
      (Speed.ofWpm wpm)._space = 7 * (Speed.ofWpm wpm)._dot ∧
      (Speed.ofWpm wpm)._repeat_pause = 21 * (Speed.ofWpm wpm)._dot ∧
      0 < (Speed.ofWpm wpm)._unit_seconds ∧
      0 < (Speed.ofWpm wpm)._dot ∧
      0 < (Speed.ofWpm wpm)._dash ∧
      0 < (Speed.ofWpm wpm)._letter_space ∧
      0 < (Speed.ofWpm wpm)._space ∧
      0 < (Speed.ofWpm wpm)._repeat_pause) ∧
    (wpm ≤ 0 → mainCheckWpm wpm = .error "WPM must be positive") := by
  constructor
  · intro h
    have hw : (0 : ℚ) < (wpm : ℚ) := by exact_mod_cast h
    have hdot : (0 : ℚ) < 60 / (50 * (wpm : ℚ)) := by positivity
    refine ⟨by simp [mainCheckWpm, not_le.mpr h], ?_⟩
    rw [Speed.ofWpm_eq]
    refine ⟨rfl, rfl, rfl, rfl, rfl, by ring, hdot, hdot, ?_, ?_, ?_, ?_⟩
    · positivity
    · positivity
    · positivity
    · positivity
  · intro h
    simp [mainCheckWpm, h]

/-- Witness for C4 at wpm = 2 and wpm = -3. -/
theorem speed_timings_correct_witness :
    ((0 : ℤ) < 2 ∧ (Speed.ofWpm 2)._dot = 60 / (50 * ((2 : ℤ) : ℚ))) ∧
    ((-3 : ℤ) ≤ 0 ∧ mainCheckWpm (-3) = .error "WPM must be positive") :=
  ⟨⟨by decide, ((speed_timings_correct 2).1 (by decide)).2.1⟩,
   ⟨by decide, (speed_timings_correct (-3)).2 (by decide)⟩⟩

/-- C3 counterexample: the claim that no operation alters the timings of an
existing `Speed` after construction fails — the `wpm` property setter
(mhue.py lines 61-69) mutates an existing value and changes its `_dot`. -/
theorem speed_wpm_setter_mutates_timings :
    (Speed.set_wpm (Speed.ofWpm 15) 30)._dot ≠ (Speed.ofWpm 15)._dot ∧
    Speed.set_wpm (Speed.ofWpm 15) 30 ≠ Speed.ofWpm 15 := by
  constructor
  · rw [Speed.ofWpm_eq]
    show (Speed.ofWpm 30)._dot ≠ _
    rw [Speed.ofWpm_eq]
    norm_num
  · intro hcontra
    have h30 : (Speed.set_wpm (Speed.ofWpm 15) 30)._wpm = 30 := rfl
    have h15 : (Speed.ofWpm 15)._wpm = 15 := rfl
    rw [hcontra, h15] at h30
    norm_num at h30

/-- C3 amended: the `wpm` setter is the one mutation operation `Speed`
provides; it re-derives all six timing fields, so assigning a new wpm to an
existing `Speed` yields exactly the value fresh construction with that wpm
would yield. -/
theorem speed_set_wpm_eq_fresh_construction (s : Speed) (wpm : ℤ) :
    Speed.set_wpm s wpm = Speed.ofWpm wpm := rfl

/-- C1 (code bug): `blink_morse_word` guards the intra-character pause by the
number of characters in the word (`j < len(morse_word) - 1`) rather than the
symbol's position in its character. On the single-character word `[[· ·]]`
(letter I) no intra-character pause at all is emitted, although the first
symbol is not the last of its character; on `[[·], [·]]` (E E) a pause is
emitted after the last symbol of each character, including the final one. -/
theorem blink_morse_word_intra_gap_bug :
    (blink_morse_word [[MorseSymbol.dot, MorseSymbol.dot]]
      (Speed.ofWpm 15)).countP Ev.isIntraCharSleep = 0 ∧
    (blink_morse_word [[MorseSymbol.dot], [MorseSymbol.dot]]
      (Speed.ofWpm 15)).countP Ev.isIntraCharSleep = 2 := by
  constructor
  · rfl
  · rfl

/-- The restoration writes of `Lamp.__exit__` when a baseline was captured. -/
theorem lampExit_some (initial current : LampState) :
    lampExit (some initial) current =
      (if ({ current with «on» := initial.«on» } : LampState) ≠ initial
       then [HueWrite.setState initial]
       else if !current.«on» && initial.«on» then [HueWrite.set_on true]
       else if current.«on» && !initial.«on» then [HueWrite.set_on false]
       else []) := rfl

/-- C2: on session release with captured baseline `initial`, if the freshly
read `current` equals `initial` nothing is written; if only the power field
differs exactly one `set_on(initial.on)` is written; if any non-power field
differs exactly one full `setState(initial)` is written (restoring power in
the same write) and no separate `set_on` occurs. -/
theorem lampExit_write_policy (initial current : LampState) :
    (current = initial → lampExit (some initial) current = []) ∧
    (({ current with «on» := initial.«on» } : LampState) = initial →
      current.«on» ≠ initial.«on» →
      lampExit (some initial) current = [HueWrite.set_on initial.«on»]) ∧
    (({ current with «on» := initial.«on» } : LampState) ≠ initial →
      lampExit (some initial) current = [HueWrite.setState initial]) := by
  refine ⟨?_, ?_, ?_⟩
  · intro h
    subst h
    have heta : ({ current with «on» := current.«on» } : LampState) = current := rfl
    rw [lampExit_some, if_neg (not_not_intro heta)]
    cases hcur : current.«on» <;> simp [hcur]
  · intro hc hon
    rw [lampExit_some, if_neg (not_not_intro hc)]
    cases hcur : current.«on» <;> cases hini : initial.«on»
    · exact absurd (hcur.trans hini.symm) hon
    · simp
    · simp
    · exact absurd (hcur.trans hini.symm) hon
  · intro hne
    rw [lampExit_some, if_pos hne]

/-- Witness for C2 on three concrete baseline/current pairs: untouched state,
power-only drift, and brightness drift. -/
theorem lampExit_write_policy_witness :
    lampExit (some (LampState.mk true (some 100) 200 none none none))
      (LampState.mk true (some 100) 200 none none none) = [] ∧
    lampExit (some (LampState.mk true (some 100) 200 none none none))
      (LampState.mk false (some 100) 200 none none none) =
        [HueWrite.set_on true] ∧
    lampExit (some (LampState.mk true (some 100) 200 none none none))
      (LampState.mk true (some 5) 200 none none none) =
        [HueWrite.setState (LampState.mk true (some 100) 200 none none none)] :=
  ⟨(lampExit_write_policy (LampState.mk true (some 100) 200 none none none)
      (LampState.mk true (some 100) 200 none none none)).1 rfl,
   (lampExit_write_policy (LampState.mk true (some 100) 200 none none none)
      (LampState.mk false (some 100) 200 none none none)).2.1 (by decide)
      (by decide),
   (lampExit_write_policy (LampState.mk true (some 100) 200 none none none)
      (LampState.mk true (some 5) 200 none none none)).2.2 (by decide)⟩

/-- The inner loop of `translate` is the `filterMap` of the table. -/
theorem translateWord_foldl (word : List Char) (acc : List (List MorseSymbol)) :
    word.foldl
      (fun morse_word c =>
        match M c with
        | some dots_dashes => morse_word ++ [dots_dashes]
        | none => morse_word)
      acc = acc ++ word.filterMap M := by
  induction word generalizing acc with
  | nil => simp
  | cons c rest ih =>
    cases h : M c with
    | none => simp [List.foldl_cons, h, ih, List.filterMap_cons]
    | some dd => simp [List.foldl_cons, h, ih, List.filterMap_cons]

/-- `translateWord` drops exactly the characters outside the table. -/
theorem translateWord_eq_filterMap (word : List Char) :
    translateWord word = word.filterMap M := by
  simpa using translateWord_foldl word []

/-- C6: `translate` uppercases the input, splits it on whitespace into words,
and maps each character of each word through the Morse table, dropping
characters absent from the table; in particular `translate "H i?"` is two
words, `[····]` and `[··, ··‒‒··]`. -/
theorem translate_pipeline_and_example (msg : List Char) :
    translate msg =
      (pySplit (msg.map pyUpper)).map (fun w => w.filterMap M) ∧
    translate ['H', ' ', 'i', '?'] =
      [[[MorseSymbol.dot, MorseSymbol.dot, MorseSymbol.dot, MorseSymbol.dot]],
       [[MorseSymbol.dot, MorseSymbol.dot],
        [MorseSymbol.dot, MorseSymbol.dot, MorseSymbol.dash, MorseSymbol.dash,
         MorseSymbol.dot, MorseSymbol.dot]]] := by
  constructor
  · unfold translate
    exact List.map_congr_left (fun w _ => translateWord_eq_filterMap w)
  · rfl

/-- C7: a split word whose characters are all absent from the table is kept
in the message as an empty character list (at its original position), and
playing back an empty word emits no events at all — no blinks and no letter
gaps. -/
theorem empty_word_retained_and_silent (msg : List Char) (i : ℕ)
    (w : List Char) (sp : Speed)
    (hw : (pySplit (msg.map pyUpper))[i]? = some w)
    (hnone : ∀ c ∈ w, M c = none) :
    (translate msg)[i]? = some [] ∧ blink_morse_word [] sp = [] := by
  constructor
  · have hword : translateWord w = [] := by
      rw [translateWord_eq_filterMap]
      exact List.filterMap_eq_nil_iff.mpr hnone
    simp [translate, List.getElem?_map, hw, hword]
  · rfl

/-- Witness for C7 on the message `"*"`, a single word of one unencodable
character. -/
theorem empty_word_retained_and_silent_witness :
    (pySplit (['*'].map pyUpper))[0]? = some ['*'] ∧
    (∀ c ∈ ['*'], M c = none) ∧
    ((translate ['*'])[0]? = some [] ∧
      blink_morse_word [] (Speed.ofWpm 15) = []) :=
  ⟨by decide, by decide,
   empty_word_retained_and_silent ['*'] 0 ['*'] (Speed.ofWpm 15) (by decide)
     (by decide)⟩

/-- `clamp` lands in the target interval. -/
theorem clamp_bounds {α : Type} [LinearOrder α] (a b x : α) (h : a ≤ b) :
    a ≤ clamp a b x ∧ clamp a b x ≤ b :=
  ⟨le_max_right _ _, max_le (min_le_right _ _) h⟩

/-- `clamp` is the identity on the target interval. -/
theorem clamp_of_mem {α : Type} [LinearOrder α] (a b x : α) (h1 : a ≤ x)
    (h2 : x ≤ b) : clamp a b x = x := by
  unfold clamp
  rw [min_eq_left h2, max_eq_left h1]

/-- C8: `LampState` construction clamps out-of-range inputs instead of
rejecting them (brightness to [0,254], colorTemperature to [154,500], hue to
[0,65535], saturation to [0,254], each of the first two xy coordinates to
[0,1], discarding further coordinates), leaves absent optional fields
absent, and in particular maps brightness 999 to 254, hue -5 to 0 and
xy [2,-1] to [1,0]. -/
theorem lampState_construction_clamps («on» : Bool) (bri : Option ℤ) (ct : ℤ)
    (hue sat : Option ℤ) (xy : Option (List ℚ)) :
    (∀ b, bri = some b → ∃ v,
      (LampState.make «on» bri ct hue sat xy).bri = some v ∧
      0 ≤ v ∧ v ≤ 254 ∧ (0 ≤ b → b ≤ 254 → v = b)) ∧
    (154 ≤ (LampState.make «on» bri ct hue sat xy).ct ∧
      (LampState.make «on» bri ct hue sat xy).ct ≤ 500) ∧
    (∀ hv, hue = some hv → ∃ v,
      (LampState.make «on» bri ct hue sat xy).hue = some v ∧
      0 ≤ v ∧ v ≤ 65535 ∧ (0 ≤ hv → hv ≤ 65535 → v = hv)) ∧
    (∀ s, sat = some s → ∃ v,
      (LampState.make «on» bri ct hue sat xy).sat = some v ∧
      0 ≤ v ∧ v ≤ 254 ∧ (0 ≤ s → s ≤ 254 → v = s)) ∧
    (∀ l, xy = some l → ∃ l2,
      (LampState.make «on» bri ct hue sat xy).xy = some l2 ∧
      l2.length = min 2 l.length ∧ ∀ q ∈ l2, 0 ≤ q ∧ q ≤ 1) ∧
    (bri = none → (LampState.make «on» bri ct hue sat xy).bri = none) ∧
    (hue = none → (LampState.make «on» bri ct hue sat xy).hue = none) ∧
    (sat = none → (LampState.make «on» bri ct hue sat xy).sat = none) ∧
    (xy = none → (LampState.make «on» bri ct hue sat xy).xy = none) ∧
    (LampState.make true (some 999) 300 none none none).bri = some 254 ∧
    (LampState.make true none 300 (some (-5)) none none).hue = some 0 ∧
    (LampState.make true none 300 none none (some [2, -1])).xy = some [1, 0] := by
  refine ⟨?_, ?_, ?_, ?_, ?_, ?_, ?_, ?_, ?_, ?_, ?_, ?_⟩
  · intro b hb
    refine ⟨clamp 0 254 b, by simp [LampState.make, hb],
      (clamp_bounds 0 254 b (by norm_num)).1,
      (clamp_bounds 0 254 b (by norm_num)).2,
      fun h1 h2 => clamp_of_mem 0 254 b h1 h2⟩
  · exact ⟨(clamp_bounds 154 500 ct (by norm_num)).1,
      (clamp_bounds 154 500 ct (by norm_num)).2⟩
  · intro hv hh
    refine ⟨clamp 0 65535 hv, by simp [LampState.make, hh],
      (clamp_bounds 0 65535 hv (by norm_num)).1,
      (clamp_bounds 0 65535 hv (by norm_num)).2,
      fun h1 h2 => clamp_of_mem 0 65535 hv h1 h2⟩
  · intro s hs
    refine ⟨clamp 0 254 s, by simp [LampState.make, hs],
      (clamp_bounds 0 254 s (by norm_num)).1,
      (clamp_bounds 0 254 s (by norm_num)).2,
      fun h1 h2 => clamp_of_mem 0 254 s h1 h2⟩
  · intro l hl
    refine ⟨(l.take 2).map (clamp 0 1), by simp [LampState.make, hl], ?_, ?_⟩
    · simp [List.length_take]
    · intro q hq
      simp only [List.mem_map] at hq
      obtain ⟨x, _, rfl⟩ := hq
      exact clamp_bounds 0 1 x (by norm_num)
  · intro hb
    simp [LampState.make, hb]
  · intro hh
    simp [LampState.make, hh]
  · intro hs
    simp [LampState.make, hs]
  · intro hx
    simp [LampState.make, hx]
  · decide
  · decide
  · show some ([(2 : ℚ), -1].map (clamp 0 1)) = some [1, 0]
    norm_num [clamp]

/-- Witness for C8 at concrete construction inputs. -/
theorem lampState_construction_clamps_witness :
    (∃ v,
      (LampState.make true (some 999) 300 (some (-5)) (some 300)
        (some [2, -1])).bri = some v ∧
      0 ≤ v ∧ v ≤ 254 ∧ (0 ≤ (999 : ℤ) → (999 : ℤ) ≤ 254 → v = 999)) ∧
    (LampState.make true (some 999) 300 none none none).bri = some 254 := by
  have h := lampState_construction_clamps true (some 999) 300 (some (-5))
    (some 300) (some [2, -1])
  have h2 := lampState_construction_clamps true (some 999) 300 none none none
  exact ⟨h.1 999 rfl, h2.2.2.2.2.2.2.2.2.2.1⟩

/-- The three events of a single `blink`. -/
theorem mem_blink {e : Ev} {d : ℚ} (h : e ∈ Lamp.blink d) :
    e = Ev.set_on true ∨ e = Ev.sleep .blinkHold d ∨ e = Ev.set_on false := by
  simpa [Lamp.blink] using h

/-- Word playback never emits a repeat gap. -/
theorem blink_morse_word_no_repeatPause (w : List (List MorseSymbol))
    (sp : Speed) : ∀ e ∈ blink_morse_word w sp, Ev.isRepeatPauseSleep e = false := by
  intro e he
  simp only [blink_morse_word, List.mem_flatMap, List.mem_append] at he
  obtain ⟨⟨i, char⟩, hmem, he⟩ := he
  rcases he with he | he
  · simp only [List.mem_flatMap, List.mem_append] at he
    obtain ⟨⟨j, b⟩, hmem2, he⟩ := he
    rcases he with he | he
    · cases b <;> rcases mem_blink he with rfl | rfl | rfl <;> rfl
    · split at he
      · simp only [List.mem_singleton] at he
        subst he
        rfl
      · simp at he
  · split at he
    · simp only [List.mem_singleton] at he
      subst he
      rfl
    · simp at he

/-- Message playback never emits a repeat gap. -/
theorem blink_morse_message_no_repeatPause
    (msg : List (List (List MorseSymbol))) (sp : Speed) :
    ∀ e ∈ blink_morse_message msg sp, Ev.isRepeatPauseSleep e = false := by
  intro e he
  simp only [blink_morse_message, List.mem_flatMap, List.mem_append] at he
  obtain ⟨⟨i, word⟩, hmem, he⟩ := he
  rcases he with he | he
  · exact blink_morse_word_no_repeatPause word sp e he
  · split at he
    · simp only [List.mem_singleton] at he
      subst he
      rfl
    · simp at he

/-- The repeat loop is `n` copies of the message traversal, each directly
followed by one repeat gap. -/
theorem playbackLoop_eq_flatten (n : ℕ) (msg : List (List (List MorseSymbol)))
    (sp : Speed) :
    playbackLoop n msg sp =
      (List.replicate n (blink_morse_message msg sp ++
        [Ev.sleep .repeatPause sp._repeat_pause])).flatten := by
  induction n with
  | zero => rfl
  | succ k ih => simp [playbackLoop, List.replicate_succ, List.flatten_cons, ih]

/-- C5: for every repeatCount ≥ 1 the playback loop is exactly repeatCount
traversals of the full message, each (including the last) directly followed
by a single repeat gap; exactly repeatCount repeat gaps are emitted, and the
message traversal itself contributes none, so only the repeat gap separates
consecutive repeats. -/
theorem playbackLoop_repeat_structure (n : ℕ)
    (msg : List (List (List MorseSymbol))) (sp : Speed) (_h : 1 ≤ n) :
    playbackLoop n msg sp =
      (List.replicate n (blink_morse_message msg sp ++
        [Ev.sleep .repeatPause sp._repeat_pause])).flatten ∧
    (playbackLoop n msg sp).countP Ev.isRepeatPauseSleep = n ∧
    ∀ e ∈ blink_morse_message msg sp, Ev.isRepeatPauseSleep e = false := by
  refine ⟨playbackLoop_eq_flatten n msg sp, ?_,
    blink_morse_message_no_repeatPause msg sp⟩
  have hmsg : (blink_morse_message msg sp).countP Ev.isRepeatPauseSleep = 0 := by
    rw [List.countP_eq_zero]
    intro a ha
    simp [blink_morse_message_no_repeatPause msg sp a ha]
  rw [playbackLoop_eq_flatten, List.countP_flatten]
  simp [List.map_replicate, List.countP_append, hmsg, List.sum_replicate,
    Ev.isRepeatPauseSleep]

/-- Witness for C5: three repeats of the one-character message "E". -/
theorem playbackLoop_repeat_structure_witness :
    (1 : ℕ) ≤ 3 ∧
    (playbackLoop 3 [[[MorseSymbol.dot]]] (Speed.ofWpm 15) =
      (List.replicate 3 (blink_morse_message [[[MorseSymbol.dot]]]
          (Speed.ofWpm 15) ++
        [Ev.sleep .repeatPause (Speed.ofWpm 15)._repeat_pause])).flatten ∧
     (playbackLoop 3 [[[MorseSymbol.dot]]] (Speed.ofWpm 15)).countP
        Ev.isRepeatPauseSleep = 3 ∧
     ∀ e ∈ blink_morse_message [[[MorseSymbol.dot]]] (Speed.ofWpm 15),
        Ev.isRepeatPauseSleep e = false) :=
  ⟨by decide,
   playbackLoop_repeat_structure 3 [[[MorseSymbol.dot]]] (Speed.ofWpm 15)
     (by decide)⟩

/-- The power writes of one `blink`, in order. -/
theorem blink_power_writes_eq (d : ℚ) :
    (Lamp.blink d).filterMap Ev.powerWrite = [true, false] := rfl

/-- Power writes of a run of blinks. -/
theorem flatMap_blink_power (ds : List ℚ) :
    (ds.flatMap Lamp.blink).filterMap Ev.powerWrite =
      ds.flatMap (fun _ => [true, false]) := by
  induction ds with
  | nil => rfl
  | cons d rest ih =>
    simp [List.flatMap_cons, List.filterMap_append, blink_power_writes_eq, ih]

/-- Last element of a nonempty run of `[true, false]` blocks. -/
theorem getLast?_flatMap_const_pair (ds : List ℚ) (h : ds ≠ []) :
    (ds.flatMap (fun _ => ([true, false] : List Bool))).getLast? =
      some false := by
  induction ds with
  | nil => exact absurd rfl h
  | cons d rest ih =>
    cases rest with
    | nil => rfl
    | cons d2 rest2 =>
      rw [List.flatMap_cons,
        List.getLast?_append_of_ne_nil _ (by simp [List.flatMap_cons])]
      exact ih (by simp)

/-- C10: every `blink` issues exactly the power writes `set_on(True)` then
`set_on(False)`, so after any nonempty sequence of blinks the most recent
power command is always off. -/
theorem blink_ends_off (ds : List ℚ) (h : ds ≠ []) :
    (∀ d : ℚ, (Lamp.blink d).filterMap Ev.powerWrite = [true, false]) ∧
    ((ds.flatMap Lamp.blink).filterMap Ev.powerWrite).getLast? = some false := by
  refine ⟨blink_power_writes_eq, ?_⟩
  rw [flatMap_blink_power]
  exact getLast?_flatMap_const_pair ds h

/-- Witness for C10 on two blinks of durations 1/2 and 3. -/
theorem blink_ends_off_witness :
    ([(1 : ℚ)/2, 3] ≠ ([] : List ℚ)) ∧
    ((∀ d : ℚ, (Lamp.blink d).filterMap Ev.powerWrite = [true, false]) ∧
     (([(1 : ℚ)/2, 3].flatMap Lamp.blink).filterMap Ev.powerWrite).getLast? =
       some false) :=
  ⟨by simp, blink_ends_off [1/2, 3] (by simp)⟩

/-- With HTTP-level success on every write, playback runs to completion:
bridge-reported error payloads are turned into diagnostics, never into
exceptions. -/
theorem runEvents_ok_of_statusOk (responses : ℕ → HttpResponse)
    (hok : ∀ n, (responses n).statusOk = true) (evs : List Ev) :
    ∀ k, ∃ out, runEvents responses k evs = .ok out := by
  induction evs with
  | nil => exact fun k => ⟨(k, []), rfl⟩
  | cons e rest ih =>
    intro k
    cases e with
    | set_on b =>
      obtain ⟨⟨k', msgs⟩, hrest⟩ := ih (k + 1)
      exact ⟨(k', (contains_hue_error (responses k).body "set_lamp").2 ++ msgs),
        by simp [runEvents, Lamp.set_on, hok k, hrest]⟩
    | sleep s d => exact ih k

/-- C9: a bridge-reported error payload never aborts playback — for any
stream of HTTP-successful responses the whole event loop completes
(`runEvents` returns `.ok`), and each write whose response carries an error
payload is detected and reported with the operation context "set_lamp"
while `set_on` still returns normally. -/
theorem bridge_error_nonfatal (responses : ℕ → HttpResponse)
    (hok : ∀ n, (responses n).statusOk = true) :
    (∀ (evs : List Ev) (k : ℕ), ∃ out, runEvents responses k evs = .ok out) ∧
    (∀ (res : HttpResponse) (b : Bool), res.statusOk = true →
      (contains_hue_error res.body "set_lamp").1 = true →
      Lamp.set_on b res = .ok (contains_hue_error res.body "set_lamp").2 ∧
      (contains_hue_error res.body "set_lamp").2 ≠ []) := by
  refine ⟨fun evs k => runEvents_ok_of_statusOk responses hok evs k, ?_⟩
  intro res b hres hdet
  refine ⟨by simp [Lamp.set_on, hres], ?_⟩
  cases hb : res.body with
  | none => simp [contains_hue_error, hb] at hdet
  | some items =>
    cases items with
    | nil => simp [contains_hue_error, hb] at hdet
    | cons item rest =>
      cases he : item.error with
      | none => simp [contains_hue_error, hb, he] at hdet
      | some e => simp [contains_hue_error, hb, he]

/-- Witness for C9: an all-HTTP-ok response stream whose every body is a
bridge error payload; one blink still completes and the error is reported. -/
theorem bridge_error_nonfatal_witness :
    (∃ out,
      runEvents (fun _ => HttpResponse.mk true (some [HueItem.mk (some "bad")]))
        0 (Lamp.blink 1) = .ok out) ∧
    (Lamp.set_on true (HttpResponse.mk true (some [HueItem.mk (some "bad")])) =
      .ok (contains_hue_error (some [HueItem.mk (some "bad")]) "set_lamp").2 ∧
     (contains_hue_error (some [HueItem.mk (some "bad")]) "set_lamp").2 ≠ []) := by
  have h := bridge_error_nonfatal
    (fun _ => HttpResponse.mk true (some [HueItem.mk (some "bad")]))
    (fun _ => rfl)
  exact ⟨h.1 (Lamp.blink 1) 0,
    h.2 (HttpResponse.mk true (some [HueItem.mk (some "bad")])) true rfl rfl⟩

end Mhue
